import Mathlib

/-!
Shallow embedding of `bodhi/services/stacks.py`: the stacks REST resource of the
Bodhi update-management application.  The controller logic of `query_stacks`,
`save_stack` and `delete_stack` is translated directly from the source; the
collaborators that the source imports from elsewhere in the repository
(`bodhi.models.Stack.get`, `Stack.update_relationship`, the validators and the
route ACLs) are modelled from the specification, each marked as such in its
doc comment.

Stacks, users, groups and packages are identified by their (globally unique)
names; the database is the list of stack rows; notifications are collected in a
list, in publication order.
-/

namespace Bodhi

/-- A user as the directory provides it to the controller (request.user): a
name plus the names of the groups the user belongs to (user.groups). -/
structure User where
  name : String
  groups : List String
deriving Repr, DecidableEq

/-- A stack row: unique name, description, and the three association sets
(stack.packages, stack.users, stack.groups), represented by the names of
the associated entities. -/
structure Stack where
  name : String
  description : String
  packages : List String
  users : List String
  groups : List String
deriving Repr, DecidableEq

/-- Modelled from the spec: the function Stack.get(name, db) lives in `bodhi/models.py`,
which is not among the provided sources; the spec's Repository contract is
get(name) with stack names globally unique, so it is the lookup of the row
with the given name. -/
def Stack.get (name : String) (db : List Stack) : Option Stack :=
  db.find? (fun s => s.name == name)

/-- The validated body of a save request (request.validated for SaveStackSchema): the stack name, the description (the empty string standing
for an absent or empty value, both falsy in the source), and the three complete
desired association sets, already resolved to entity names by the validator. -/
structure SaveData where
  name : String
  description : String
  packages : List String
  users : List String
  groups : List String
deriving Repr, DecidableEq

/-- A published notification: what notifications.publish emits: a topic and the stack carried in the message. -/
structure Notification where
  topic : String
  stack : Stack
deriving Repr, DecidableEq

/-- Lines 108-113 of the source: fetch the stack by name; when absent, create
a stack with the requested name and users = [user] and add and flush it, so the new row
is persisted (and owned by its creator) before the ownership check runs. -/
def fetchOrCreate (name : String) (user : User) (db : List Stack) :
    Stack × List Stack :=
  match Stack.get name db with
  | some st => (st, db)
  | none =>
    let st : Stack :=
      { name := name, description := "", packages := [], users := [user.name],
        groups := [] }
    (st, db ++ [st])

/-- Lines 116-121 of the source: the acting user passes the ownership check
when they are a direct member of the stack's users (user in stack.users), or
one of their groups is among the stack's groups (the loop over user.groups
testing membership in stack.groups). -/
def isOwner (user : User) (st : Stack) : Bool :=
  st.users.contains user.name || user.groups.any (fun g => st.groups.contains g)

/-- Line 115 of the source: the ownership check only runs when
the Python condition on stack.users or stack.groups is truthy, i.e. at least one of the two lists is
non-empty; an unowned stack skips the check entirely. -/
def authCheck (user : User) (st : Stack) : Bool :=
  if st.users.isEmpty && st.groups.isEmpty then true else isOwner user st

/-- Modelled from the spec: the method Stack.update_relationship(field, Model, data, db)
lives in `bodhi/models.py`, which is not among the provided sources.  Per the
spec (operation save, step 4, and the design notes), the caller supplies the
complete desired set and the controller reconciles it against the current
associated set: reconcile(current, desired) yields the entities to add (in
the desired set but not currently associated) and the entities to remove
(currently associated but absent from the desired set). -/
def reconcile (current desired : List String) : List String × List String :=
  (desired.filter (fun x => !(current.contains x)),
   current.filter (fun x => !(desired.contains x)))

/-- Modelled from the spec (the application of `reconcile`): the new
association set is the current one without the removals, plus the additions. -/
def update_relationship (current desired : List String) : List String :=
  current.filter (fun x => !((reconcile current desired).2.contains x))
    ++ (reconcile current desired).1

/-- Lines 132-139 of the source: replace the description when the supplied one
is truthy (non-empty), then reconcile the three association sets with the
supplied desired sets. -/
def applySave (data : SaveData) (st : Stack) : Stack :=
  let st1 := if data.description ≠ "" then
    { st with description := data.description } else st
  { st1 with
    packages := update_relationship st1.packages data.packages
    users := update_relationship st1.users data.users
    groups := update_relationship st1.groups data.groups }

/-- Persisting the mutated row: the row carrying the stack's (unique) name is
replaced by its updated value. -/
def setStack (st : Stack) (db : List Stack) : List Stack :=
  db.map (fun s => if s.name == st.name then st else s)

/-- The outcome of `save_stack`: either the HTTPForbidden error added to request.errors (against body field name, with the message built on lines 127-128), or the saved stack returned on line 144. -/
inductive SaveResult where
  | forbidden (field msg : String)
  | ok (stack : Stack)
deriving Repr, DecidableEq

/-- The full effect of a save request: its result, the database afterwards, and
the notifications published during it. -/
structure SaveOutcome where
  result : SaveResult
  db : List Stack
  notifications : List Notification
deriving Repr, DecidableEq

/-- The controller operation save_stack (lines 102-144 of the source): fetch or create the stack, run
the ownership check (returning Forbidden and mutating nothing further when it
fails), then apply the description update and the three relationship updates,
and publish a `stack.save` notification carrying the resulting stack. -/
def save_stack (data : SaveData) (user : User) (db : List Stack) : SaveOutcome :=
  let fc := fetchOrCreate data.name user db
  let st := fc.1
  let db1 := fc.2
  if authCheck user st then
    let st1 := applySave data st
    { result := SaveResult.ok st1
      db := setStack st1 db1
      notifications := [{ topic := "stack.save", stack := st1 }] }
  else
    { result := SaveResult.forbidden "name"
        (user.name ++ " does not have privileges to modify the "
          ++ st.name ++ " stack")
      db := db1
      notifications := [] }

/-- The full effect of a delete request: the returned status, the database
afterwards, and the notifications published during it. -/
structure DeleteOutcome where
  status : String
  db : List Stack
  notifications : List Notification
deriving Repr, DecidableEq

/-- The controller operation delete_stack (lines 147-154 of the source): publish the `stack.delete`
notification carrying the stack as it still stands (with all its associations),
then remove the row from the database, and return a success status.  The
notification payload is the pre-deletion stack because the publish precedes the
removal. -/
def delete_stack (st : Stack) (db : List Stack) : DeleteOutcome :=
  { status := "success"
    db := db.filter (fun s => !(s.name == st.name))
    notifications := [{ topic := "stack.delete", stack := st }] }

/-- Modelled from the spec: the delete route's stack resolution and
authorization are delegated to collaborators that are not among the provided
sources (validate_stack and the route ACL).  Per the spec, the validator
resolves the name to a stack (NotFound when absent) and the ACL enforces the
same direct/group-owner policy as save: the request fails with Forbidden when
the caller is neither a direct user of the stack nor a member of one of the
stack's groups; otherwise `delete_stack` runs. -/
def delete_request (name : String) (user : User) (db : List Stack) :
    Except String DeleteOutcome :=
  match Stack.get name db with
  | none => Except.error "NotFound"
  | some st =>
    if isOwner user st then Except.ok (delete_stack st db)
    else Except.error "Forbidden"

/-- The validated parameters of a list request (request.validated for ListStackSchema): the empty string and the empty list stand for absent
filters (falsy in the source); `packages` is already resolved to package names
by validate_packages; `page` and `rows_per_page` are the validated pagination
parameters. -/
structure ListData where
  name : String
  like : String
  packages : List String
  page : Nat
  rows_per_page : Nat
deriving Repr, DecidableEq

/-- Lines 69-82 of the source: order all stacks by name descending
(order_by on the name, descending), then apply the optional filters conjunctively:
exact name (filter_by on the name), name substring
(the like filter, with percent wildcards around the requested text), and the join retaining the stacks that have at
least one associated package among the requested names. -/
def stackQuery (data : ListData) (db : List Stack) : List Stack :=
  let q0 := db.mergeSort (fun a b => decide (b.name ≤ a.name))
  let q1 := if data.name == "" then q0 else
    q0.filter (fun s => s.name == data.name)
  let q2 := if data.like == "" then q1 else
    q1.filter (fun s => decide (data.like.toList <:+: s.name.toList))
  if data.packages.isEmpty then q2 else
    q2.filter (fun s => s.packages.any (fun p => data.packages.contains p))

/-- The dictionary returned by query_stacks (lines 90-96 of the source); the
field rows is the dictionary entry holding the requested page of stacks,
renamed because the source's key for it is a reserved word in this
development's ambient library. -/
structure QueryResult where
  rows : List Stack
  page : Nat
  pages : Nat
  rows_per_page : Nat
  total : Nat
deriving Repr, DecidableEq

/-- The controller operation query_stacks (lines 66-96 of the source): `total` counts the matches
before pagination; pages is int(math.ceil(total / float(rows_per_page))),
which raises ZeroDivisionError when `rows_per_page` is zero (modelled as the
error result) and otherwise equals (total + rows_per_page - 1) / rows_per_page in natural-number division; the returned rows are the
offset(rows_per_page * (page - 1)).limit(rows_per_page) window. -/
def query_stacks (data : ListData) (db : List Stack) :
    Except String QueryResult :=
  let q := stackQuery data db
  let total := q.length
  if data.rows_per_page == 0 then Except.error "ZeroDivisionError"
  else
    Except.ok
      { rows := (q.drop (data.rows_per_page * (data.page - 1))).take
          data.rows_per_page
        page := data.page
        pages := (total + data.rows_per_page - 1) / data.rows_per_page
        rows_per_page := data.rows_per_page
        total := total }


/-- Bridging lemma: list containment (the Boolean membership test the source's
`in` operator becomes) agrees with propositional membership. -/
theorem contains_eq_decide_mem (l : List String) (a : String) :
    l.contains a = decide (a ∈ l) := by
  by_cases h : a ∈ l
  · simp [h, List.elem_iff.mpr h]
  · simp [h]

/-- Reconciliation is exact: an entity is associated after
`update_relationship` precisely when it is in the caller-supplied desired
set. -/
theorem mem_update_relationship (current desired : List String) (x : String) :
    x ∈ update_relationship current desired ↔ x ∈ desired := by
  simp only [update_relationship, reconcile, List.mem_append, List.mem_filter,
    Bool.not_eq_true', contains_eq_decide_mem, decide_eq_false_iff_not]
  by_cases hc : x ∈ current <;> by_cases hd : x ∈ desired <;> simp_all

/-- Characterisation of the ownership test: direct membership in the stack's
users, or one of the acting user's groups among the stack's groups. -/
theorem isOwner_iff (user : User) (st : Stack) :
    isOwner user st = true ↔
      user.name ∈ st.users ∨ ∃ g ∈ user.groups, g ∈ st.groups := by
  simp [isOwner, List.any_eq_true, contains_eq_decide_mem]

/-- Characterisation of the authorization gate of `save_stack`: it passes when
the stack is unowned (both lists empty), or the acting user is an owner. -/
theorem authCheck_iff (user : User) (st : Stack) :
    authCheck user st = true ↔
      ((st.users = [] ∧ st.groups = []) ∨ user.name ∈ st.users
        ∨ ∃ g ∈ user.groups, g ∈ st.groups) := by
  by_cases h : st.users.isEmpty && st.groups.isEmpty
  · rcases Bool.and_eq_true _ _ |>.mp h with ⟨h1, h2⟩
    simp only [List.isEmpty_iff] at h1 h2
    simp [authCheck, h, h1, h2]
  · have h3 : ¬(st.users = [] ∧ st.groups = []) := by
      intro hh
      exact h (by simp [hh.1, hh.2])
    simp [authCheck, h, isOwner_iff, h3]

/-- Arithmetic bridge: for a non-zero divisor, the natural-number expression
the embedding uses for the page count equals the mathematical ceiling of the
rational quotient, which is what math.ceil computes in the source. -/
theorem ceil_cast_div_eq (t r : ℕ) (hr : r ≠ 0) :
    (t + r - 1) / r = ⌈(t : ℚ) / (r : ℚ)⌉₊ := by
  have hr0 : 0 < r := Nat.pos_of_ne_zero hr
  have hrq : (0 : ℚ) < (r : ℚ) := by exact_mod_cast hr0
  apply le_antisymm
  · rw [Nat.div_le_iff_le_mul_add_pred hr0]
    have h1 : (t : ℚ) / (r : ℚ) ≤ (⌈(t : ℚ) / (r : ℚ)⌉₊ : ℚ) := Nat.le_ceil _
    have h2 : (t : ℚ) ≤ (⌈(t : ℚ) / (r : ℚ)⌉₊ : ℚ) * (r : ℚ) := by
      rw [div_le_iff₀ hrq] at h1
      exact h1
    have h3 : t ≤ ⌈(t : ℚ) / (r : ℚ)⌉₊ * r := by exact_mod_cast h2
    calc t + r - 1 ≤ t + (r - 1) := by omega
      _ ≤ ⌈(t : ℚ) / (r : ℚ)⌉₊ * r + (r - 1) := by omega
      _ = r * ⌈(t : ℚ) / (r : ℚ)⌉₊ + (r - 1) := by rw [Nat.mul_comm]
  · rw [Nat.ceil_le, div_le_iff₀ hrq]
    have h4 : t ≤ (t + r - 1) / r * r := by
      rcases Nat.eq_zero_or_pos t with ht | ht
      · simp [ht]
      · have he : t + r - 1 = (t - 1) + r := by omega
        rw [he, Nat.add_div_right _ hr0, Nat.add_mul, Nat.one_mul]
        have hd := Nat.div_add_mod (t - 1) r
        rw [Nat.mul_comm] at hd
        have hm : (t - 1) % r < r := Nat.mod_lt _ hr0
        omega
    exact_mod_cast h4

/-- Claim C1: for every save on a stack whose users set or groups set is
non-empty, the operation proceeds to mutation if and only if the acting user is
a direct member of the stack's users or some group of the acting user is also
among the stack's groups; when the stack has neither users nor groups, the
check is skipped and any authenticated acting user proceeds. -/
theorem save_authorization (data : SaveData) (user : User) (db : List Stack)
    (st : Stack) (hget : Stack.get data.name db = some st) :
    ((st.users ≠ [] ∨ st.groups ≠ []) →
      ((∃ r, (save_stack data user db).result = SaveResult.ok r) ↔
        (user.name ∈ st.users ∨ ∃ g ∈ user.groups, g ∈ st.groups)))
    ∧ ((st.users = [] ∧ st.groups = []) →
        ∃ r, (save_stack data user db).result = SaveResult.ok r) := by
  unfold save_stack
  simp only [fetchOrCreate, hget]
  by_cases hauth : authCheck user st = true
  · simp only [hauth, if_true]
    constructor
    · intro hne
      constructor
      · intro _
        rcases (authCheck_iff user st).mp hauth with h | h
        · rcases hne with h1 | h1
          · exact absurd h.1 h1
          · exact absurd h.2 h1
        · exact h
      · intro _
        exact ⟨applySave data st, rfl⟩
    · intro _
      exact ⟨applySave data st, rfl⟩
  · simp only [Bool.not_eq_true] at hauth
    simp only [hauth, Bool.false_eq_true, if_false]
    constructor
    · intro hne
      constructor
      · rintro ⟨r, hr⟩
        simp at hr
      · intro hmem
        have hc : authCheck user st = true :=
          (authCheck_iff user st).mpr (Or.inr hmem)
        rw [hc] at hauth
        cases hauth
    · intro hempty
      have hc : authCheck user st = true :=
        (authCheck_iff user st).mpr (Or.inl hempty)
      rw [hc] at hauth
      cases hauth

/-- Concrete instantiation of the save authorization theorem: a one-stack
database owned by its single direct user, saved by that user. -/
theorem save_authorization_witness :
    Stack.get "s" [Stack.mk "s" "" [] ["a"] []] = some (Stack.mk "s" "" [] ["a"] [])
    ∧ (((["a"] ≠ ([] : List String) ∨ ([] : List String) ≠ ([] : List String)) →
        ((∃ r, (save_stack (SaveData.mk "s" "" [] [] []) (User.mk "a" [])
            [Stack.mk "s" "" [] ["a"] []]).result = SaveResult.ok r) ↔
          ("a" ∈ ["a"] ∨ ∃ g ∈ ([] : List String), g ∈ ([] : List String))))
      ∧ ((["a"] = ([] : List String) ∧ ([] : List String) = ([] : List String)) →
          ∃ r, (save_stack (SaveData.mk "s" "" [] [] []) (User.mk "a" [])
            [Stack.mk "s" "" [] ["a"] []]).result = SaveResult.ok r)) :=
  ⟨by decide, save_authorization (SaveData.mk "s" "" [] [] []) (User.mk "a" [])
    [Stack.mk "s" "" [] ["a"] []] (Stack.mk "s" "" [] ["a"] []) (by decide)⟩

/-- Claim C2: a save by a user who fails the ownership check on a stack with
non-empty owners fails with Forbidden, carrying a message naming the acting
user and the stack, and leaves the database (hence the stack's description,
packages, users and groups) entirely unchanged and publishes no notification. -/
theorem save_forbidden_atomic (data : SaveData) (user : User) (db : List Stack)
    (st : Stack) (hget : Stack.get data.name db = some st)
    (hown : st.users ≠ [] ∨ st.groups ≠ [])
    (huser : user.name ∉ st.users)
    (hgrp : ∀ g ∈ user.groups, g ∉ st.groups) :
    (save_stack data user db).result =
      SaveResult.forbidden "name"
        (user.name ++ " does not have privileges to modify the "
          ++ st.name ++ " stack")
    ∧ (save_stack data user db).db = db
    ∧ Stack.get data.name (save_stack data user db).db = some st
    ∧ (save_stack data user db).notifications = [] := by
  have hauth : authCheck user st = false := by
    rw [← Bool.not_eq_true]
    intro hc
    rcases (authCheck_iff user st).mp hc with h | h | ⟨g, hg1, hg2⟩
    · rcases hown with h1 | h1
      · exact h1 h.1
      · exact h1 h.2
    · exact huser h
    · exact hgrp g hg1 hg2
  unfold save_stack
  simp only [fetchOrCreate, hget, hauth, Bool.false_eq_true, if_false]
  exact ⟨trivial, trivial, trivial, trivial⟩

/-- Concrete instantiation of the forbidden-save theorem: a non-owner, non
group-member user saving an owned stack. -/
theorem save_forbidden_atomic_witness :
    Stack.get "s" [Stack.mk "s" "d" [] ["a"] []] = some (Stack.mk "s" "d" [] ["a"] [])
    ∧ (["a"] ≠ ([] : List String) ∨ ([] : List String) ≠ ([] : List String))
    ∧ ¬("b" ∈ (["a"] : List String))
    ∧ (∀ g ∈ ([] : List String), g ∉ ([] : List String))
    ∧ ((save_stack (SaveData.mk "s" "x" ["p"] [] []) (User.mk "b" [])
          [Stack.mk "s" "d" [] ["a"] []]).result =
        SaveResult.forbidden "name"
          ("b" ++ " does not have privileges to modify the " ++ "s" ++ " stack")
      ∧ (save_stack (SaveData.mk "s" "x" ["p"] [] []) (User.mk "b" [])
          [Stack.mk "s" "d" [] ["a"] []]).db = [Stack.mk "s" "d" [] ["a"] []]
      ∧ Stack.get "s" (save_stack (SaveData.mk "s" "x" ["p"] [] []) (User.mk "b" [])
          [Stack.mk "s" "d" [] ["a"] []]).db = some (Stack.mk "s" "d" [] ["a"] [])
      ∧ (save_stack (SaveData.mk "s" "x" ["p"] [] []) (User.mk "b" [])
          [Stack.mk "s" "d" [] ["a"] []]).notifications = []) :=
  ⟨by decide, by decide, by decide, by decide,
    save_forbidden_atomic (SaveData.mk "s" "x" ["p"] [] []) (User.mk "b" [])
      [Stack.mk "s" "d" [] ["a"] []] (Stack.mk "s" "d" [] ["a"] [])
      (by decide) (by decide) (by decide) (by decide)⟩

/-- Claim C3: a save of a name with no existing stack creates exactly one new
stack with that name whose users set is exactly the acting user, persists it
before the ownership check runs, and such a first save never fails the
ownership check. -/
theorem save_creates_fresh (data : SaveData) (user : User) (db : List Stack)
    (hfresh : Stack.get data.name db = none) :
    (fetchOrCreate data.name user db).1.name = data.name
    ∧ (fetchOrCreate data.name user db).1.users = [user.name]
    ∧ Stack.get data.name (fetchOrCreate data.name user db).2 =
        some (fetchOrCreate data.name user db).1
    ∧ (fetchOrCreate data.name user db).2.countP
        (fun s => s.name == data.name) = 1
    ∧ ∀ f m, (save_stack data user db).result ≠ SaveResult.forbidden f m := by
  have hz : ∀ s ∈ db, ¬(s.name == data.name) = true := by
    intro s hs
    exact List.find?_eq_none.mp hfresh s hs
  refine ⟨?_, ?_, ?_, ?_, ?_⟩
  · simp [fetchOrCreate, hfresh]
  · simp [fetchOrCreate, hfresh]
  · simp only [fetchOrCreate, hfresh]
    unfold Stack.get
    rw [List.find?_append]
    rw [List.find?_eq_none.mpr hz]
    simp
  · simp only [fetchOrCreate, hfresh]
    rw [List.countP_append]
    rw [List.countP_eq_zero.mpr hz]
    simp
  · intro f m
    unfold save_stack
    simp only [fetchOrCreate, hfresh]
    have hauth : authCheck user
        ({ name := data.name, description := "", packages := [],
           users := [user.name], groups := [] } : Stack) = true := by
      apply (authCheck_iff _ _).mpr
      right; left
      simp
    simp [hauth]

/-- Concrete instantiation of the fresh-save theorem: saving a name into an
empty database. -/
theorem save_creates_fresh_witness :
    Stack.get "t" ([] : List Stack) = none
    ∧ ((fetchOrCreate "t" (User.mk "a" []) []).1.name = "t"
      ∧ (fetchOrCreate "t" (User.mk "a" []) []).1.users = ["a"]
      ∧ Stack.get "t" (fetchOrCreate "t" (User.mk "a" []) []).2 =
          some (fetchOrCreate "t" (User.mk "a" []) []).1
      ∧ (fetchOrCreate "t" (User.mk "a" []) []).2.countP
          (fun s => s.name == "t") = 1
      ∧ ∀ f m, (save_stack (SaveData.mk "t" "" [] [] []) (User.mk "a" [])
          []).result ≠ SaveResult.forbidden f m) :=
  ⟨by decide, save_creates_fresh (SaveData.mk "t" "" [] [] [])
    (User.mk "a" []) [] (by decide)⟩

/-- Claim C4: after every successful save, each of the three association sets
of the resulting stack equals exactly the corresponding caller-supplied desired
set (membership-wise), independently for packages, users and groups. -/
theorem save_sets_associations (data : SaveData) (user : User) (db : List Stack)
    (stf : Stack) (hok : (save_stack data user db).result = SaveResult.ok stf) :
    (∀ x, x ∈ stf.packages ↔ x ∈ data.packages)
    ∧ (∀ x, x ∈ stf.users ↔ x ∈ data.users)
    ∧ (∀ x, x ∈ stf.groups ↔ x ∈ data.groups) := by
  simp only [save_stack] at hok
  by_cases hauth : authCheck user (fetchOrCreate data.name user db).1 = true
  · simp only [hauth, if_true, SaveResult.ok.injEq] at hok
    subst hok
    refine ⟨?_, ?_, ?_⟩ <;> intro x <;>
      simp [applySave, mem_update_relationship]
  · simp only [Bool.not_eq_true] at hauth
    simp [hauth] at hok

/-- Concrete instantiation of the association-reconciliation theorem: a first
save supplying one package and one user. -/
theorem save_sets_associations_witness :
    (save_stack (SaveData.mk "s" "d" ["p"] ["a"] []) (User.mk "a" [])
        []).result = SaveResult.ok (Stack.mk "s" "d" ["p"] ["a"] [])
    ∧ ((∀ x, x ∈ (["p"] : List String) ↔ x ∈ (["p"] : List String))
      ∧ (∀ x, x ∈ (["a"] : List String) ↔ x ∈ (["a"] : List String))
      ∧ (∀ x, x ∈ ([] : List String) ↔ x ∈ ([] : List String))) :=
  ⟨by decide, save_sets_associations (SaveData.mk "s" "d" ["p"] ["a"] [])
    (User.mk "a" []) [] (Stack.mk "s" "d" ["p"] ["a"] []) (by decide)⟩

/-- Claim C5: after every successful save, a non-empty supplied description
replaces the stack's description exactly, while an empty (or absent) supplied
description leaves the prior description unchanged. -/
theorem save_description (data : SaveData) (user : User) (db : List Stack)
    (stf : Stack) (hok : (save_stack data user db).result = SaveResult.ok stf) :
    (data.description ≠ "" → stf.description = data.description)
    ∧ (data.description = "" →
        stf.description = (fetchOrCreate data.name user db).1.description) := by
  simp only [save_stack] at hok
  by_cases hauth : authCheck user (fetchOrCreate data.name user db).1 = true
  · simp only [hauth, if_true, SaveResult.ok.injEq] at hok
    subst hok
    constructor
    · intro hd
      simp [applySave, hd]
    · intro hd
      simp [applySave, hd]
  · simp only [Bool.not_eq_true] at hauth
    simp [hauth] at hok

/-- Concrete instantiation of the description-update theorem: saving an
unowned stack with a new non-empty description. -/
theorem save_description_witness :
    (save_stack (SaveData.mk "s" "nd" [] [] []) (User.mk "a" [])
        [Stack.mk "s" "old" [] [] []]).result =
      SaveResult.ok (Stack.mk "s" "nd" [] [] [])
    ∧ (((("nd" : String) ≠ "") → ("nd" : String) = "nd")
      ∧ ((("nd" : String) = "") → ("nd" : String) =
          (fetchOrCreate "s" (User.mk "a" [])
            [Stack.mk "s" "old" [] [] []]).1.description)) :=
  ⟨by decide, save_description (SaveData.mk "s" "nd" [] [] []) (User.mk "a" [])
    [Stack.mk "s" "old" [] [] []] (Stack.mk "s" "nd" [] [] []) (by decide)⟩

/-- Claim C6: a delete request by a caller who is neither a direct user of the
stack nor a member of one of the stack's groups fails with Forbidden — the
same direct/group-owner policy as save, as the spec delegates it to the
Validator/ACL collaborator. -/
theorem delete_forbidden (name : String) (user : User) (db : List Stack)
    (st : Stack) (hget : Stack.get name db = some st)
    (huser : user.name ∉ st.users)
    (hgrp : ∀ g ∈ user.groups, g ∉ st.groups) :
    delete_request name user db = Except.error "Forbidden" := by
  have hno : isOwner user st = false := by
    rw [← Bool.not_eq_true]
    intro hc
    rcases (isOwner_iff user st).mp hc with h | ⟨g, hg1, hg2⟩
    · exact huser h
    · exact hgrp g hg1 hg2
  simp [delete_request, hget, hno]

/-- Concrete instantiation of the forbidden-delete theorem: a non-owner
deleting an owned stack. -/
theorem delete_forbidden_witness :
    Stack.get "s" [Stack.mk "s" "" [] ["a"] []] = some (Stack.mk "s" "" [] ["a"] [])
    ∧ ¬("b" ∈ (["a"] : List String))
    ∧ (∀ g ∈ ([] : List String), g ∉ ([] : List String))
    ∧ delete_request "s" (User.mk "b" []) [Stack.mk "s" "" [] ["a"] []] =
        Except.error "Forbidden" :=
  ⟨by decide, by decide, by decide,
    delete_forbidden "s" (User.mk "b" []) [Stack.mk "s" "" [] ["a"] []]
      (Stack.mk "s" "" [] ["a"] []) (by decide) (by decide) (by decide)⟩

/-- Claim C7: deleting an existing stack publishes exactly one stack.delete
event whose payload is the pre-deletion stack, still carrying all its package,
user and group associations (the publish precedes the removal); afterwards the
stack is no longer resolvable by name, and the operation returns a success
indicator. -/
theorem delete_publishes_then_removes (st : Stack) (db : List Stack)
    (hmem : Stack.get st.name db = some st) :
    (delete_stack st db).notifications = [{ topic := "stack.delete", stack := st }]
    ∧ (∀ n ∈ (delete_stack st db).notifications,
        n.stack.packages = st.packages ∧ n.stack.users = st.users
          ∧ n.stack.groups = st.groups)
    ∧ Stack.get st.name (delete_stack st db).db = none
    ∧ (delete_stack st db).status = "success" := by
  refine ⟨rfl, ?_, ?_, rfl⟩
  · intro n hn
    simp only [delete_stack, List.mem_singleton] at hn
    subst hn
    exact ⟨rfl, rfl, rfl⟩
  · unfold delete_stack Stack.get
    apply List.find?_eq_none.mpr
    intro s hs
    have hf := List.mem_filter.mp hs
    simpa using hf.2

/-- Concrete instantiation of the delete theorem: deleting the only stack of a
one-stack database, a stack carrying one package, one user and one group. -/
theorem delete_publishes_then_removes_witness :
    Stack.get "s" [Stack.mk "s" "" ["p"] ["a"] ["g"]] =
      some (Stack.mk "s" "" ["p"] ["a"] ["g"])
    ∧ ((delete_stack (Stack.mk "s" "" ["p"] ["a"] ["g"])
          [Stack.mk "s" "" ["p"] ["a"] ["g"]]).notifications =
        [{ topic := "stack.delete", stack := Stack.mk "s" "" ["p"] ["a"] ["g"] }]
      ∧ (∀ n ∈ (delete_stack (Stack.mk "s" "" ["p"] ["a"] ["g"])
            [Stack.mk "s" "" ["p"] ["a"] ["g"]]).notifications,
          n.stack.packages = ["p"] ∧ n.stack.users = ["a"]
            ∧ n.stack.groups = ["g"])
      ∧ Stack.get "s" (delete_stack (Stack.mk "s" "" ["p"] ["a"] ["g"])
          [Stack.mk "s" "" ["p"] ["a"] ["g"]]).db = none
      ∧ (delete_stack (Stack.mk "s" "" ["p"] ["a"] ["g"])
          [Stack.mk "s" "" ["p"] ["a"] ["g"]]).status = "success") :=
  ⟨by decide, delete_publishes_then_removes (Stack.mk "s" "" ["p"] ["a"] ["g"])
    [Stack.mk "s" "" ["p"] ["a"] ["g"]] (by decide)⟩

/-- Claim C8: for every list request with a positive page size, the returned
total is the number of matching stacks before pagination, the returned page
count is the ceiling of total divided by the page size, the returned rows are
the standard offset/limit window, and any page number exceeding the page count
yields an empty row set while total and pages keep the same values. -/
theorem query_pagination (data : ListData) (db : List Stack)
    (hrpp : 1 ≤ data.rows_per_page) :
    ∃ out, query_stacks data db = Except.ok out
      ∧ out.total = (stackQuery data db).length
      ∧ out.pages = ⌈(out.total : ℚ) / (data.rows_per_page : ℚ)⌉₊
      ∧ out.rows = ((stackQuery data db).drop
          (data.rows_per_page * (data.page - 1))).take data.rows_per_page
      ∧ (out.pages < data.page → out.rows = [])
      ∧ out.page = data.page ∧ out.rows_per_page = data.rows_per_page := by
  have hne : data.rows_per_page ≠ 0 := by omega
  refine ⟨{ rows := ((stackQuery data db).drop
              (data.rows_per_page * (data.page - 1))).take data.rows_per_page,
            page := data.page,
            pages := ((stackQuery data db).length + data.rows_per_page - 1)
              / data.rows_per_page,
            rows_per_page := data.rows_per_page,
            total := (stackQuery data db).length },
          ?_, rfl, ?_, rfl, ?_, rfl, rfl⟩
  · simp [query_stacks, hne]
  · exact ceil_cast_div_eq _ _ hne
  · intro hlt
    dsimp only at hlt ⊢
    have hrq : (0 : ℚ) < (data.rows_per_page : ℚ) := by
      exact_mod_cast Nat.pos_of_ne_zero hne
    have h1 : ((stackQuery data db).length : ℚ) / (data.rows_per_page : ℚ) ≤
        (((((stackQuery data db).length + data.rows_per_page - 1)
          / data.rows_per_page : ℕ)) : ℚ) := by
      rw [ceil_cast_div_eq _ _ hne]
      exact Nat.le_ceil _
    rw [div_le_iff₀ hrq] at h1
    have hLP : (stackQuery data db).length ≤
        (((stackQuery data db).length + data.rows_per_page - 1)
          / data.rows_per_page) * data.rows_per_page := by
      exact_mod_cast h1
    have h2 : (((stackQuery data db).length + data.rows_per_page - 1)
          / data.rows_per_page) * data.rows_per_page
        ≤ (data.page - 1) * data.rows_per_page :=
      Nat.mul_le_mul_right _ (by omega)
    have h3 : (stackQuery data db).length ≤
        data.rows_per_page * (data.page - 1) := by
      calc (stackQuery data db).length
          ≤ (data.page - 1) * data.rows_per_page := le_trans hLP h2
        _ = data.rows_per_page * (data.page - 1) := Nat.mul_comm _ _
    rw [List.drop_eq_nil_of_le h3]
    exact List.take_nil

/-- Concrete instantiation of the pagination theorem: twenty-five stacks, ten
rows per page, and a request for page four (one past the three pages). -/
theorem query_pagination_witness :
    1 ≤ 10
    ∧ (∃ out, query_stacks (ListData.mk "" "" [] 4 10)
          ((List.range 25).map (fun i => Stack.mk (toString i) "" [] [] []))
        = Except.ok out
      ∧ out.total = (stackQuery (ListData.mk "" "" [] 4 10)
          ((List.range 25).map (fun i => Stack.mk (toString i) "" [] [] []))).length
      ∧ out.pages = ⌈(out.total : ℚ) / ((10 : ℕ) : ℚ)⌉₊
      ∧ out.rows = ((stackQuery (ListData.mk "" "" [] 4 10)
          ((List.range 25).map (fun i => Stack.mk (toString i) "" [] [] []))).drop
            (10 * (4 - 1))).take 10
      ∧ (out.pages < 4 → out.rows = [])
      ∧ out.page = 4 ∧ out.rows_per_page = 10) :=
  ⟨by decide, query_pagination (ListData.mk "" "" [] 4 10)
    ((List.range 25).map (fun i => Stack.mk (toString i) "" [] [] []))
    (by decide)⟩

/-- Claim C9: the three optional filters of a list request are applied
conjunctively — exact-name equality, name-substring match, and possession of at
least one associated package whose name is among the requested package names —
and the matched results are ordered by stack name descending. -/
theorem query_filters (data : ListData) (db : List Stack) :
    (∀ s, s ∈ stackQuery data db ↔
      (s ∈ db
        ∧ (data.name ≠ "" → s.name = data.name)
        ∧ (data.like ≠ "" → data.like.toList <:+: s.name.toList)
        ∧ (data.packages ≠ [] → ∃ p ∈ s.packages, p ∈ data.packages)))
    ∧ (stackQuery data db).Pairwise (fun a b => b.name ≤ a.name) := by
  have hperm := List.mergeSort_perm db (fun a b => decide (b.name ≤ a.name))
  constructor
  · intro s
    unfold stackQuery
    by_cases h1 : data.name = "" <;> by_cases h2 : data.like = "" <;>
      by_cases h3 : data.packages = [] <;>
      simp [h1, h2, h3, List.mem_filter, hperm.mem_iff, List.any_eq_true,
        contains_eq_decide_mem, beq_iff_eq] <;> tauto
  · have htrans : ∀ a b c : Stack,
        decide (b.name ≤ a.name) = true → decide (c.name ≤ b.name) = true →
          decide (c.name ≤ a.name) = true := by
      intro a b c hab hbc
      simp only [decide_eq_true_eq] at hab hbc ⊢
      exact le_trans hbc hab
    have htotal : ∀ a b : Stack,
        (decide (b.name ≤ a.name) || decide (a.name ≤ b.name)) = true := by
      intro a b
      simp only [Bool.or_eq_true, decide_eq_true_eq]
      exact le_total b.name a.name
    have hsorted := List.sorted_mergeSort htrans htotal db
    have hs2 : (db.mergeSort (fun a b => decide (b.name ≤ a.name))).Pairwise
        (fun a b : Stack => b.name ≤ a.name) :=
      hsorted.imp (fun h => by simpa using h)
    have keep : ∀ (p : Stack → Bool) (l : List Stack),
        l.Pairwise (fun a b : Stack => b.name ≤ a.name) →
          (l.filter p).Pairwise (fun a b : Stack => b.name ≤ a.name) :=
      fun p l h => List.Pairwise.sublist (List.filter_sublist l) h
    unfold stackQuery
    by_cases h1 : data.name = "" <;> by_cases h2 : data.like = "" <;>
      by_cases h3 : data.packages = [] <;>
      simp only [h1, h2, h3, beq_iff_eq, List.isEmpty_iff, if_true, if_false,
        ite_true, ite_false, eq_self_iff_true, ne_eq, not_false_iff,
        not_true, if_neg, reduceIte] <;>
      first
        | exact hs2
        | exact keep _ _ hs2
        | exact keep _ _ (keep _ _ hs2)
        | exact keep _ _ (keep _ _ (keep _ _ hs2))

/-- Claim C10: the controller divides by the validated page size with no
guard; a list request whose validated rows_per_page is zero hits the division
and raises ZeroDivisionError instead of returning a result. -/
theorem query_zero_rows_per_page (data : ListData) (db : List Stack)
    (h : data.rows_per_page = 0) :
    query_stacks data db = Except.error "ZeroDivisionError" := by
  simp [query_stacks, h]

/-- Concrete instantiation of the zero-page-size theorem: a request with
rows_per_page zero against the empty database. -/
theorem query_zero_rows_per_page_witness :
    (ListData.mk "" "" [] 1 0).rows_per_page = 0
    ∧ query_stacks (ListData.mk "" "" [] 1 0) [] =
        Except.error "ZeroDivisionError" :=
  ⟨rfl, query_zero_rows_per_page (ListData.mk "" "" [] 1 0) [] rfl⟩

end Bodhi
